import Mathlib

/-! Observability middleware (`pkg/monitoring/middleware.go`).

A shallow embedding of the request middleware chain of the repository:

* the status-capturing writer built by `getRRW` (the `httpsnoop` hooks) and its
  `sync.Pool`;
* `traceware.ServeHTTP`, the tracing and metrics middleware;
* `responseWriter` and `ServeHTTPMiddleware`, the exception-counting wrapper.

Go objects with mutable fields become explicit state.  An `http.ResponseWriter`
is a method table over a state type; a handler is a tree of the calls it makes
on the writer it is given, branching on what `Write` returns to it.  The
Prometheus vectors are modelled by the sequence of effects on them and a
registry that folds these effects.  Go strings are byte sequences.  A call on
the metrics library panics when the library rejects its arguments: a label value
that is not valid UTF-8, or exemplar labels of more than 128 runes.
-/

namespace Monitoring

/-! ## The `net/http` surface -/

/-- A byte slice. -/
abbrev Bytes := List UInt8

/-- The pair `(int, error)` returned by `Write`; `none` is the nil error. -/
abbrev WriteResult := Int × Option String

/-- An `http.ResponseWriter` as used by a handler: its `Write` and `WriteHeader`
methods over an explicit state `σ`.  `Header()` is not intercepted by any wrapper
of this package and is left out. -/
structure ResponseWriter (σ : Type) where
  Write : σ → Bytes → σ × WriteResult
  WriteHeader : σ → Int → σ

/-- One call made on a response writer. -/
inductive Call where
  | Write (b : Bytes)
  | WriteHeader (statusCode : Int)
  deriving DecidableEq

/-- One call as observed at a writer, together with what `Write` returned. -/
inductive Event where
  | Write (b : Bytes) (res : WriteResult)
  | WriteHeader (statusCode : Int)
  deriving DecidableEq

/-- The call of an observed event. -/
def Event.call : Event → Call
  | .Write b _ => .Write b
  | .WriteHeader c => .WriteHeader c

/-- How a handler invocation ends: it returns, or it unwinds with a panic. -/
inductive Outcome where
  | returned
  | panicked
  deriving DecidableEq

/-- The body of an `http.Handler` as seen from the writer it is handed: it
returns, panics, or makes one more call and continues; after a `Write` it
continues according to the `(int, error)` it got back. -/
inductive Prog where
  | ret : Prog
  | panics : Prog
  | Write (b : Bytes) (k : WriteResult → Prog) : Prog
  | WriteHeader (statusCode : Int) (k : Prog) : Prog

/-- The result of running a handler body against a writer. -/
structure Run (σ : Type) where
  sink : σ
  outcome : Outcome
  transcript : List Event

/-- Run a handler body against a writer, from writer state `s`.  The transcript
lists the calls the handler made with the results handed back to it. -/
def exec {σ : Type} (w : ResponseWriter σ) : Prog → σ → Run σ
  | .ret, s => { sink := s, outcome := .returned, transcript := [] }
  | .panics, s => { sink := s, outcome := .panicked, transcript := [] }
  | .Write b k, s =>
      let out := w.Write s b
      let rest := exec w (k out.2) out.1
      { rest with transcript := Event.Write b out.2 :: rest.transcript }
  | .WriteHeader c k, s =>
      let rest := exec w k (w.WriteHeader s c)
      { rest with transcript := Event.WriteHeader c :: rest.transcript }

/-- Perform one call on a writer; the result of a `Write` is dropped. -/
def ResponseWriter.call {σ : Type} (w : ResponseWriter σ) (s : σ) : Call → σ
  | .Write b => (w.Write s b).1
  | .WriteHeader c => w.WriteHeader s c

/-- Perform a sequence of calls on a writer, in order. -/
def ResponseWriter.calls {σ : Type} (w : ResponseWriter σ) (s : σ) (cs : List Call) : σ :=
  cs.foldl w.call s

/-- The handler body that makes the given calls in order, whatever `Write`
returns, and then returns. -/
def Prog.ofCalls : List Call → Prog
  | [] => .ret
  | .Write b :: cs => .Write b (fun _ => Prog.ofCalls cs)
  | .WriteHeader c :: cs => .WriteHeader c (Prog.ofCalls cs)

/-- The constant `http.StatusOK`. -/
def StatusOK : Int := 200

/-! ## The status-capturing writer and its pool -/

/-- The struct `recordingResponseWriter`.  The field `writer` holds
`httpsnoop.Wrap(w, hooks)`, represented by the wrapped writer `w`; `none` is nil.
The behaviour of the wrapper is `rrwWriter`. -/
structure recordingResponseWriter (W : Type) where
  writer : Option W
  written : Bool
  status : Int

/-- The `Write` hook installed by `getRRW`, applied to `next`. -/
def rrwWrite {W σ : Type} (next : ResponseWriter σ)
    (st : recordingResponseWriter W × σ) (b : Bytes) :
    (recordingResponseWriter W × σ) × WriteResult :=
  let rrw := st.1
  let rrw := if !rrw.written then { rrw with written := true } else rrw
  let out := next.Write st.2 b
  ((rrw, out.1), out.2)

/-- The `WriteHeader` hook installed by `getRRW`, applied to `next`. -/
def rrwWriteHeader {W σ : Type} (next : ResponseWriter σ)
    (st : recordingResponseWriter W × σ) (statusCode : Int) :
    recordingResponseWriter W × σ :=
  let rrw := st.1
  let rrw := if !rrw.written then { rrw with written := true, status := statusCode } else rrw
  (rrw, next.WriteHeader st.2 statusCode)

/-- The writer `httpsnoop.Wrap(writer, hooks)` handed to the handler: the state
is the recording struct the hooks close over, and the state of the wrapped
writer. -/
def rrwWriter {W σ : Type} (next : ResponseWriter σ) :
    ResponseWriter (recordingResponseWriter W × σ) where
  Write := rrwWrite next
  WriteHeader := rrwWriteHeader next

/-- The contents of a `sync.Pool` of recording writers. -/
abbrev Pool (W : Type) := List (recordingResponseWriter W)

/-- The `New` function of `rrwPool`: `&recordingResponseWriter{}`. -/
def rrwPool.New {W : Type} : recordingResponseWriter W :=
  { writer := none, written := false, status := 0 }

/-- The method `Get` of `sync.Pool`: it hands out an arbitrary pooled item and
removes it, or ignores the pool and calls `New`.  `choice` is the scheduler's
pick. -/
def Pool.Get {W : Type} (pool : Pool W) (choice : Option Nat) :
    recordingResponseWriter W × Pool W :=
  match choice with
  | none => (rrwPool.New, pool)
  | some i =>
    match pool.get? i with
    | some x => (x, pool.eraseIdx i)
    | none => (rrwPool.New, pool)

/-- The method `Put` of `sync.Pool`. -/
def Pool.Put {W : Type} (pool : Pool W) (x : recordingResponseWriter W) : Pool W :=
  x :: pool

/-- The function `getRRW`. -/
def getRRW {W : Type} (pool : Pool W) (choice : Option Nat) (writer : W) :
    recordingResponseWriter W × Pool W :=
  let got := pool.Get choice
  let rrw := got.1
  let rrw := { rrw with written := false }
  let rrw := { rrw with status := StatusOK }
  let rrw := { rrw with writer := some writer }
  (rrw, got.2)

/-- The function `putRRW`. -/
def putRRW {W : Type} (pool : Pool W) (rrw : recordingResponseWriter W) : Pool W :=
  pool.Put { rrw with writer := none }

/-- The status the first call of a sequence decides: the code of a leading
`WriteHeader`, and 200 for a leading `Write` or for no call at all. -/
def firstCallStatus : List Call → Int
  | [] => 200
  | .WriteHeader c :: _ => c
  | .Write _ :: _ => 200

/-- One request of an acquire/use/release cycle: the pick of the pool, the sink
with its state, and the calls of the handler. -/
structure Cycle (σ : Type) where
  choice : Option Nat
  w : ResponseWriter σ
  s : σ
  calls : List Call

/-- Serve the requests one after the other through the pool (`getRRW`, the
handler's calls, `putRRW`) and list the status recorded for each. -/
def runCycles {σ : Type} : Pool (ResponseWriter σ) → List (Cycle σ) → List Int
  | _, [] => []
  | pool, q :: qs =>
      let got := getRRW pool q.choice q.w
      let fin := (rrwWriter q.w).calls (got.1, q.s) q.calls
      fin.1.status :: runCycles (putRRW got.2 fin.1) qs

/-- The status recorded for a request served with a newly allocated recording
writer instead of a pooled one. -/
def freshStatus {σ : Type} (q : Cycle σ) : Int :=
  let rrw : recordingResponseWriter (ResponseWriter σ) :=
    { writer := some q.w, written := false, status := StatusOK }
  ((rrwWriter q.w).calls (rrw, q.s) q.calls).1.status

/-! ## Go strings -/

/-- A Go `string`: a sequence of bytes, which need not be valid UTF-8. -/
abbrev GoString := List UInt8

/-- The Go string holding the UTF-8 encoding of a text. -/
def go (s : String) : GoString := s.toList.flatMap String.utf8EncodeChar

/-- Whether a byte is a UTF-8 continuation byte, `0x80` to `0xBF`. -/
def isCont (b : UInt8) : Bool := 0x80 ≤ b && b ≤ 0xBF

/-- The width in bytes of the well-formed UTF-8 sequence a byte string starts
with, and 0 when it starts with none; the accepted ranges are those of the
package `unicode/utf8`. -/
def runeWidth : List UInt8 → Nat
  | [] => 0
  | b0 :: rest =>
    if b0 < 0x80 then 1
    else if 0xC2 ≤ b0 && b0 ≤ 0xDF then
      match rest with
      | b1 :: _ => if isCont b1 then 2 else 0
      | _ => 0
    else if b0 = 0xE0 then
      match rest with
      | b1 :: b2 :: _ => if 0xA0 ≤ b1 && b1 ≤ 0xBF && isCont b2 then 3 else 0
      | _ => 0
    else if (0xE1 ≤ b0 && b0 ≤ 0xEC) || b0 = 0xEE || b0 = 0xEF then
      match rest with
      | b1 :: b2 :: _ => if isCont b1 && isCont b2 then 3 else 0
      | _ => 0
    else if b0 = 0xED then
      match rest with
      | b1 :: b2 :: _ => if 0x80 ≤ b1 && b1 ≤ 0x9F && isCont b2 then 3 else 0
      | _ => 0
    else if b0 = 0xF0 then
      match rest with
      | b1 :: b2 :: b3 :: _ =>
          if 0x90 ≤ b1 && b1 ≤ 0xBF && isCont b2 && isCont b3 then 4 else 0
      | _ => 0
    else if 0xF1 ≤ b0 && b0 ≤ 0xF3 then
      match rest with
      | b1 :: b2 :: b3 :: _ => if isCont b1 && isCont b2 && isCont b3 then 4 else 0
      | _ => 0
    else if b0 = 0xF4 then
      match rest with
      | b1 :: b2 :: b3 :: _ =>
          if 0x80 ≤ b1 && b1 ≤ 0x8F && isCont b2 && isCont b3 then 4 else 0
      | _ => 0
    else 0

/-- The loop of `utf8.ValidString`, with the number of bytes left as fuel. -/
def validFrom : Nat → List UInt8 → Bool
  | _, [] => true
  | 0, _ :: _ => false
  | n + 1, b :: bs =>
    match runeWidth (b :: bs) with
    | 0 => false
    | k + 1 => validFrom n (bs.drop k)

/-- The function `utf8.ValidString`. -/
def utf8ValidString (s : GoString) : Bool := validFrom s.length s

/-- The loop of `utf8.RuneCountInString`, with the number of bytes left as
fuel: a byte that starts no well-formed sequence counts as one rune. -/
def runeCountFrom : Nat → List UInt8 → Nat
  | _, [] => 0
  | 0, _ :: _ => 0
  | n + 1, b :: bs => 1 + runeCountFrom n (bs.drop (runeWidth (b :: bs) - 1))

/-- The function `utf8.RuneCountInString`. -/
def utf8RuneCountInString (s : GoString) : Nat := runeCountFrom s.length s

/-! ## The metrics registry -/

/-- The metric vectors declared by the package. -/
inductive Metric where
  | REQUESTS
  | RESPONSES
  | REQUESTS_PROCESSING_TIME
  | REQUESTS_PROCESSING_TIME_EXEMPLAR
  | EXCEPTIONS
  | REQUESTS_IN_PROGRESS
  deriving DecidableEq

/-- One effect on the registry.  `WithLabelValues(labels...)` followed by `Inc`,
`Dec` or `Observe` is one effect on the series `labels`.  `ObserveWithExemplar`
on the histogram without labels is two effects in this order: the observation,
`Observe` with no label values, and the storing of the exemplar, `Exemplar`. -/
inductive MetricOp where
  | Inc (m : Metric) (labels : List GoString)
  | Dec (m : Metric) (labels : List GoString)
  | Observe (m : Metric) (labels : List GoString) (v : ℚ)
  | Exemplar (m : Metric) (v : ℚ) (exemplar : List (GoString × GoString))
  deriving DecidableEq

/-- The state of the registry: the value of every counter and gauge series, the
observations of every histogram series, and the exemplars stored. -/
structure Registry where
  value : Metric → List GoString → Int
  observations : Metric → List GoString → List ℚ
  exemplars : Metric → List (ℚ × List (GoString × GoString))

/-- The effect of one operation on the registry. -/
def Registry.apply (reg : Registry) : MetricOp → Registry
  | .Inc m labels =>
      { reg with value := fun m1 l1 =>
          if m1 = m ∧ l1 = labels then reg.value m1 l1 + 1 else reg.value m1 l1 }
  | .Dec m labels =>
      { reg with value := fun m1 l1 =>
          if m1 = m ∧ l1 = labels then reg.value m1 l1 - 1 else reg.value m1 l1 }
  | .Observe m labels v =>
      { reg with observations := fun m1 l1 =>
          if m1 = m ∧ l1 = labels then reg.observations m1 l1 ++ [v]
          else reg.observations m1 l1 }
  | .Exemplar m v e =>
      { reg with exemplars := fun m1 =>
          if m1 = m then reg.exemplars m1 ++ [(v, e)] else reg.exemplars m1 }

/-- The effect of a sequence of operations, in order. -/
def Registry.applyAll (reg : Registry) (ops : List MetricOp) : Registry :=
  ops.foldl Registry.apply reg

/-- The registry right after registration: no series has been touched. -/
def Registry.empty : Registry where
  value := fun _ _ => 0
  observations := fun _ _ => []
  exemplars := fun _ => []

/-- The change one operation makes to the value of the series `m`, `labels`. -/
def MetricOp.delta (m : Metric) (labels : List GoString) : MetricOp → Int
  | .Inc m1 l1 => if m = m1 ∧ labels = l1 then 1 else 0
  | .Dec m1 l1 => if m = m1 ∧ labels = l1 then -1 else 0
  | _ => 0

/-- The values observed into a histogram, over all its series, in order. -/
def observed (m : Metric) : List MetricOp → List ℚ
  | [] => []
  | .Observe m1 _ v :: ops => if m1 = m then v :: observed m ops else observed m ops
  | _ :: ops => observed m ops

/-- The label values of the operations on one metric vector, in order. -/
def labelsUsed (m : Metric) : List MetricOp → List (List GoString)
  | [] => []
  | .Inc m1 l :: ops => if m1 = m then l :: labelsUsed m ops else labelsUsed m ops
  | .Dec m1 l :: ops => if m1 = m then l :: labelsUsed m ops else labelsUsed m ops
  | .Observe m1 l _ :: ops => if m1 = m then l :: labelsUsed m ops else labelsUsed m ops
  | .Exemplar _ _ _ :: ops => labelsUsed m ops

/-! ## Time -/

/-- The constant `time.Second`, in nanoseconds. -/
def Second : Int := 1000000000

/-- The method `Duration.Seconds` on a duration in nanoseconds: the whole
seconds plus the remaining nanoseconds over `1e9`.  The value is kept exact;
the rounding of `float64` is not modelled. -/
def Seconds (d : Int) : ℚ :=
  let sec := d.tdiv Second
  let nsec := d.tmod Second
  (sec : ℚ) + (nsec : ℚ) / 1000000000

/-! ## Requests, routes and spans -/

/-- The span context carried by a `context.Context`; the identifiers are in
their `String()` form. -/
structure SpanContext where
  TraceID : GoString
  SpanID : GoString
  IsValid : Bool
  IsRemote : Bool
  deriving DecidableEq

/-- A `mux.Route`, by the two accessors the middleware calls; an error result
carries the error. -/
structure Route where
  GetPathTemplate : Except String GoString
  GetPathRegexp : Except String GoString

/-- An `http.Request`: the method, `URL.Path` (the decoded path, any bytes), the
headers, the span context of its context, and the route `mux.CurrentRoute`
finds in it (`none` is nil). -/
structure Request where
  Method : GoString
  Path : GoString
  Header : List (GoString × GoString)
  ctx : SpanContext
  CurrentRoute : Option Route

/-- The span-start options the middleware builds. -/
inductive SpanStartOption where
  | ServerRequest (service : GoString) (r : Request)
  | SpanKindServer
  | NewRoot
  | Links (s : SpanContext)
  | HTTPRoute (route : GoString)

/-- Whether an option is `trace.WithAttributes(semconv.HTTPRoute(_))`. -/
def SpanStartOption.isHTTPRoute : SpanStartOption → Bool
  | .HTTPRoute _ => true
  | _ => false

/-- What the middleware does to the span after starting it. -/
inductive SpanEvent where
  | SetHTTPStatusCode (status : Int)
  | SetServerStatus (status : Int)
  | End
  deriving DecidableEq

/-- What lies outside the package: `util.GetEnv`, `http.StatusText`, the global
tracer and propagator of `otel`, and `utf8.ValidString` and
`utf8.RuneCountInString` as the metrics library uses them. -/
structure Env where
  GetEnv : GoString → GoString → GoString
  StatusText : Int → GoString
  GetTracerProvider : SpanContext → GoString → List SpanStartOption → SpanContext
  GetTextMapPropagator : SpanContext → List (GoString × GoString) → SpanContext
  ValidString : GoString → Bool
  RuneCountInString : GoString → Nat

/-- The check `WithLabelValues` of a metric vector makes on its arguments: it
panics unless every label value is valid UTF-8.  (It also checks the number of
values, which is right at every call of this package.) -/
def validateLabelValues (env : Env) (vals : List GoString) : Bool :=
  vals.all env.ValidString

/-- The constant `prometheus.ExemplarMaxRunes`. -/
def ExemplarMaxRunes : Nat := 128

/-- The check `ObserveWithExemplar` makes on the exemplar labels after it has
recorded the observation: it panics unless every value is valid UTF-8 and the
names and values together have at most `ExemplarMaxRunes` runes.  (It also checks
the label names, which are fixed and well-formed in this package.) -/
def exemplarAccepted (env : Env) (e : List (GoString × GoString)) : Bool :=
  e.all (fun kv => env.ValidString kv.2) &&
    decide ((e.map (fun kv => env.RuneCountInString kv.1 + env.RuneCountInString kv.2)).sum
      ≤ ExemplarMaxRunes)

/-- Make calls on the metrics library in order.  Each call comes with whether
the library accepts its arguments; the first call it rejects panics, and no
later call is made. -/
def performCalls : List (Bool × MetricOp) → List MetricOp × Outcome
  | [] => ([], .returned)
  | (accepted, op) :: rest =>
    if accepted then
      let done := performCalls rest
      (op :: done.1, done.2)
    else ([], .panicked)

/-- The function `strconv.Itoa`: the decimal text of an integer. -/
def Itoa (n : Int) : GoString := go (toString n)

/-- The struct `config`; a nil field is `none`.  A tracer provider is given by
the `Start` of its tracer, which yields the span context of the new span; a
propagator by its `Extract`. -/
structure config where
  TracerProvider : Option (SpanContext → GoString → List SpanStartOption → SpanContext)
  Propagators : Option (SpanContext → List (GoString × GoString) → SpanContext)
  spanNameFormatter : Option (GoString → Request → GoString)
  PublicEndpoint : Bool
  PublicEndpointFn : Option (Request → Bool)

/-- The struct `traceware`. -/
structure traceware where
  service : GoString
  tracer : SpanContext → GoString → List SpanStartOption → SpanContext
  propagators : SpanContext → List (GoString × GoString) → SpanContext
  handler : Request → Prog
  spanNameFormatter : GoString → Request → GoString
  publicEndpoint : Bool
  publicEndpointFn : Option (Request → Bool)

/-- The function `defaultSpanNameFunc`. -/
def defaultSpanNameFunc (routeName : GoString) (_r : Request) : GoString := routeName

/-- The function `RouteMiddleware`, applied to the handler it wraps. -/
def RouteMiddleware (env : Env) (service : GoString) (opts : List (config → config))
    (handler : Request → Prog) : traceware :=
  let cfg : config :=
    { TracerProvider := none, Propagators := none, spanNameFormatter := none,
      PublicEndpoint := false, PublicEndpointFn := none }
  let cfg := opts.foldl (fun c opt => opt c) cfg
  let tracer := match cfg.TracerProvider with
    | none => env.GetTracerProvider
    | some t => t
  let propagators := match cfg.Propagators with
    | none => env.GetTextMapPropagator
    | some p => p
  let spanNameFormatter := match cfg.spanNameFormatter with
    | none => defaultSpanNameFunc
    | some f => f
  { service := service
    tracer := tracer
    propagators := propagators
    handler := handler
    spanNameFormatter := spanNameFormatter
    publicEndpoint := cfg.PublicEndpoint
    publicEndpointFn := cfg.PublicEndpointFn }

/-! ## `traceware.ServeHTTP` -/

/-- Everything `traceware.ServeHTTP` does in one call: the final state of the
writer `w`, how the call ended, the effects on the registry in program order,
the pool, the span (name, start options, later events), and the locals
`routeStr` (after line 238), `r2`, `rrw` (at the end), how the handler ended
(`none` when it was never called) and the handler's transcript. -/
structure ServeResult (σ : Type) where
  sink : σ
  outcome : Outcome
  ops : List MetricOp
  pool : Pool (ResponseWriter σ)
  spanName : GoString
  opts : List SpanStartOption
  span : List SpanEvent
  routeStr : GoString
  r2 : Request
  rrw : recordingResponseWriter (ResponseWriter σ)
  handlerOutcome : Option Outcome
  transcript : List Event

/-- The method `traceware.ServeHTTP`.  `clock k` is the `k`-th reading of the
clock the method makes (`time.Now()`, then each `time.Since(now)`), in
nanoseconds.  When the handler or a call on the metrics library panics, only
the deferred calls run (`putRRW(rrw)`, then `span.End()`) and the panic goes on
to the caller. -/
def traceware.ServeHTTP {σ : Type} (tw : traceware) (env : Env) (clock : Nat → Int)
    (pool : Pool (ResponseWriter σ)) (choice : Option Nat)
    (w : ResponseWriter σ) (s : σ) (r : Request) : ServeResult σ :=
  let ctx := tw.propagators r.ctx r.Header
  let routeStr : GoString :=
    match r.CurrentRoute with
    | none => []
    | some route =>
      match route.GetPathTemplate with
      | .ok t => t
      | .error _ =>
        match route.GetPathRegexp with
        | .ok re => re
        | .error _ => []
  let opts := [SpanStartOption.ServerRequest tw.service r, SpanStartOption.SpanKindServer]
  let isPublic := tw.publicEndpoint ||
    (match tw.publicEndpointFn with
     | none => false
     | some f => f { r with ctx := ctx })
  let opts :=
    if isPublic then
      let opts := opts ++ [SpanStartOption.NewRoot]
      if ctx.IsValid && ctx.IsRemote then opts ++ [SpanStartOption.Links ctx] else opts
    else opts
  let routed : GoString × List SpanStartOption :=
    if routeStr = [] then (go "HTTP " ++ r.Method ++ go " route not found", opts)
    else (routeStr, opts ++ [SpanStartOption.HTTPRoute routeStr])
  let routeStr := routed.1
  let opts := routed.2
  let spanName := tw.spanNameFormatter routeStr r
  let sCtx := tw.tracer ctx spanName opts
  let r2 := { r with ctx := sCtx }
  let got := getRRW pool choice w
  let pool := got.2
  let path := r.Path
  let method := r.Method
  let appName := env.GetEnv (go "APP_NAME") (go "app")
  let before := performCalls
    [(validateLabelValues env [method, path, appName],
        MetricOp.Inc .REQUESTS_IN_PROGRESS [method, path, appName]),
     (validateLabelValues env [method, path, appName],
        MetricOp.Inc .REQUESTS [method, path, appName])]
  match before.2 with
  | .panicked =>
      { sink := s, outcome := .panicked, ops := before.1,
        pool := putRRW pool got.1, spanName := spanName, opts := opts,
        span := [SpanEvent.End], routeStr := routeStr, r2 := r2, rrw := got.1,
        handlerOutcome := none, transcript := [] }
  | .returned =>
    let now := clock 0
    let run := exec (rrwWriter w) (tw.handler r2) (got.1, s)
    let rrw := run.sink.1
    match run.outcome with
    | .panicked =>
        { sink := run.sink.2, outcome := .panicked, ops := before.1,
          pool := putRRW pool rrw, spanName := spanName, opts := opts,
          span := [SpanEvent.End], routeStr := routeStr, r2 := r2, rrw := rrw,
          handlerOutcome := some .panicked, transcript := run.transcript }
    | .returned =>
        let span := if rrw.status > 0 then [SpanEvent.SetHTTPStatusCode rrw.status] else []
        let span := span ++ [SpanEvent.SetServerStatus rrw.status]
        let traceID := sCtx.TraceID
        let spanId := sCtx.SpanID
        let exemplar := [(go "TraceID", traceID), (go "spanId", spanId),
                         (go "method", method), (go "path", path),
                         (go "appName", appName)]
        let after := performCalls
          [(validateLabelValues env [method, path, appName],
              MetricOp.Observe .REQUESTS_PROCESSING_TIME [method, path, appName]
                (Seconds (clock 1 - now))),
           (true,
              MetricOp.Observe .REQUESTS_PROCESSING_TIME_EXEMPLAR []
                (Seconds (clock 2 - now))),
           (exemplarAccepted env exemplar,
              MetricOp.Exemplar .REQUESTS_PROCESSING_TIME_EXEMPLAR
                (Seconds (clock 2 - now)) exemplar),
           (validateLabelValues env [method, path, Itoa rrw.status, appName],
              MetricOp.Inc .RESPONSES [method, path, Itoa rrw.status, appName]),
           (validateLabelValues env [method, path, appName],
              MetricOp.Dec .REQUESTS_IN_PROGRESS [method, path, appName])]
        { sink := run.sink.2, outcome := after.2, ops := before.1 ++ after.1,
          pool := putRRW pool rrw, spanName := spanName, opts := opts,
          span := span ++ [SpanEvent.End], routeStr := routeStr, r2 := r2, rrw := rrw,
          handlerOutcome := some .returned, transcript := run.transcript }

/-! ## `responseWriter` and `ServeHTTPMiddleware` -/

/-- The struct `responseWriter`: the embedded writer (its state) and
`statusCode`. -/
structure responseWriter (σ : Type) where
  ResponseWriter : σ
  statusCode : Int

/-- The function `NewResponseWriter`. -/
def NewResponseWriter {σ : Type} (w : σ) : responseWriter σ :=
  { ResponseWriter := w, statusCode := StatusOK }

/-- The method `responseWriter.WriteHeader`. -/
def responseWriter.WriteHeader {σ : Type} (next : Monitoring.ResponseWriter σ)
    (rw : responseWriter σ) (code : Int) : responseWriter σ :=
  let rw := { rw with statusCode := code }
  { rw with ResponseWriter := next.WriteHeader rw.ResponseWriter code }

/-- The method `Write` of `responseWriter`, promoted from the embedded writer. -/
def responseWriter.Write {σ : Type} (next : Monitoring.ResponseWriter σ)
    (rw : responseWriter σ) (b : Bytes) : responseWriter σ × WriteResult :=
  let out := next.Write rw.ResponseWriter b
  ({ rw with ResponseWriter := out.1 }, out.2)

/-- A `*responseWriter` used as an `http.ResponseWriter`. -/
def responseWriter.asWriter {σ : Type} (next : Monitoring.ResponseWriter σ) :
    Monitoring.ResponseWriter (responseWriter σ) where
  Write := responseWriter.Write next
  WriteHeader := responseWriter.WriteHeader next

/-- What a handler invocation leaves behind for its caller: the state of the
writer it was given, how it ended, and its effects on the registry. -/
structure HResult (τ : Type) where
  sink : τ
  outcome : Outcome
  ops : List MetricOp

/-- An `http.Handler` that may be wrapped by `ServeHTTPMiddleware`. -/
abbrev Handler (τ : Type) := ResponseWriter τ → τ → Request → HResult τ

/-- What the handler returned by `ServeHTTPMiddleware` does in one call; `rw` is
the local `rw` when the inner handler is done. -/
structure MiddlewareResult (σ : Type) where
  sink : σ
  outcome : Outcome
  ops : List MetricOp
  rw : responseWriter σ

/-- The handler returned by `ServeHTTPMiddleware(h)`.  When `h` panics the
statements after the call do not run; when `EXCEPTIONS.WithLabelValues` rejects
the label values it panics and nothing is incremented. -/
def ServeHTTPMiddleware {σ : Type} (env : Env) (h : Handler (responseWriter σ))
    (w : ResponseWriter σ) (s : σ) (r : Request) : MiddlewareResult σ :=
  let path := r.Path
  let method := r.Method
  let appName := env.GetEnv (go "APP_NAME") (go "app")
  let rw := NewResponseWriter s
  let res := h (responseWriter.asWriter w) rw r
  let rw := res.sink
  match res.outcome with
  | .panicked =>
      { sink := rw.ResponseWriter, outcome := .panicked, ops := res.ops, rw := rw }
  | .returned =>
      let statusCode := rw.statusCode
      if statusCode ≥ 400 then
        let done := performCalls
          [(validateLabelValues env [method, path, env.StatusText statusCode, appName],
              MetricOp.Inc .EXCEPTIONS [method, path, env.StatusText statusCode, appName])]
        { sink := rw.ResponseWriter, outcome := done.2, ops := res.ops ++ done.1, rw := rw }
      else
        { sink := rw.ResponseWriter, outcome := .returned, ops := res.ops, rw := rw }

/-- A handler body as an `http.Handler`: it touches no metric. -/
def Prog.asHandler {τ : Type} (p : Request → Prog) : Handler τ :=
  fun w s r =>
    let run := exec w (p r) s
    { sink := run.sink, outcome := run.outcome, ops := [] }

/-- The method `traceware.ServeHTTP` as an `http.Handler`. -/
def traceware.asHandler {τ : Type} (tw : traceware) (env : Env) (clock : Nat → Int)
    (pool : Pool (ResponseWriter τ)) (choice : Option Nat) : Handler τ :=
  fun w s r =>
    let res := tw.ServeHTTP env clock pool choice w s r
    { sink := res.sink, outcome := res.outcome, ops := res.ops }

/-- The two layers as `main` stacks them: `ServeHTTPMiddleware` outside,
`traceware.ServeHTTP` inside. -/
def chain {σ : Type} (tw : traceware) (env : Env) (clock : Nat → Int)
    (pool : Pool (ResponseWriter (responseWriter σ))) (choice : Option Nat)
    (w : ResponseWriter σ) (s : σ) (r : Request) : MiddlewareResult σ :=
  ServeHTTPMiddleware env (tw.asHandler env clock pool choice) w s r

/-- A writer that forwards to `w` and keeps a log of every call it receives with
the result it hands back. -/
def logged {σ : Type} (w : ResponseWriter σ) : ResponseWriter (σ × List Event) where
  Write := fun st b =>
    let out := w.Write st.1 b
    ((out.1, st.2 ++ [Event.Write b out.2]), out.2)
  WriteHeader := fun st c => (w.WriteHeader st.1 c, st.2 ++ [Event.WriteHeader c])

/-! ## Concrete inputs used in the examples -/

/-- A sink that accepts every write in full and keeps nothing. -/
def nullSink : ResponseWriter Unit where
  Write := fun _ b => ((), ((b.length : Int), none))
  WriteHeader := fun _ _ => ()

/-- An environment: `APP_NAME` is unset, the status texts of the codes used
below, a tracer that hands out one fixed span context, and the functions of
`unicode/utf8`. -/
def env0 : Env where
  GetEnv := fun _ fallback => fallback
  StatusText := fun c =>
    if c = 200 then go "OK"
    else if c = 404 then go "Not Found"
    else if c = 500 then go "Internal Server Error"
    else []
  GetTracerProvider := fun _ _ _ =>
    { TraceID := go "0af7651916cd43dd8448eb211c80319c", SpanID := go "b7ad6b7169203331",
      IsValid := true, IsRemote := false }
  GetTextMapPropagator := fun c _ => c
  ValidString := utf8ValidString
  RuneCountInString := utf8RuneCountInString

/-- A span context without a parent. -/
def noCtx : SpanContext :=
  { TraceID := [], SpanID := [], IsValid := false, IsRemote := false }

/-- A `GET` request for `path` with no current route. -/
def getRequest (path : GoString) : Request :=
  { Method := go "GET", Path := path, Header := [], ctx := noCtx, CurrentRoute := none }

/-- A `GET` request for `path` matched by a route whose template is `path`. -/
def routedRequest (path : GoString) : Request :=
  { Method := go "GET", Path := path, Header := [], ctx := noCtx,
    CurrentRoute := some { GetPathTemplate := .ok path, GetPathRegexp := .ok path } }

/-- A clock that advances by one second between two readings. -/
def tickingClock (k : Nat) : Int := (k : Int) * 1000000000

/-- The middleware as `main` builds it, around the given handler body. -/
def mw (p : Prog) : traceware := RouteMiddleware env0 (go "app") [] (fun _ => p)

/-- The route string the request resolves to, in words: the path template when
there is a current route and `GetPathTemplate` succeeds, otherwise the path
regexp when `GetPathRegexp` succeeds; nothing when there is no current route,
when both fail, or when the string obtained is empty. -/
def resolvedRouteSpec (r : Request) : Option GoString :=
  match r.CurrentRoute with
  | none => none
  | some route =>
    match route.GetPathTemplate with
    | .ok t => if t = [] then none else some t
    | .error _ =>
      match route.GetPathRegexp with
      | .ok re => if re = [] then none else some re
      | .error _ => none

/-- The route label in words: the resolved route string, or the synthesized
string naming the method when there is none. -/
def routeLabelSpec (r : Request) : GoString :=
  match resolvedRouteSpec r with
  | some t => t
  | none => go "HTTP " ++ r.Method ++ go " route not found"

/-- A handler body that writes two bytes and then sets status 500, as the
`/health` handler does when encoding fails after the first write. -/
def writeThenError : Prog :=
  .Write [111, 107] (fun _ => .WriteHeader 500 .ret)

/-- A clock that stands still after the handler is done: the start reading is 0
and every later reading is one and a half seconds. -/
def steppedClock (k : Nat) : Int := if k = 0 then 0 else 1500000000

end Monitoring

/-! ## Lemmas on the status-capturing writer -/

namespace Monitoring

theorem getRRW_fst {W : Type} (pool : Pool W) (choice : Option Nat) (writer : W) :
    (getRRW pool choice writer).1 =
      { writer := some writer, written := false, status := StatusOK } := by
  simp [getRRW]

theorem rrwWriter_call_of_written {W σ : Type} (next : ResponseWriter σ)
    (st : recordingResponseWriter W × σ) (c : Call) (h : st.1.written = true) :
    ((rrwWriter next).call st c).1 = st.1 := by
  cases c <;> simp [ResponseWriter.call, rrwWriter, rrwWrite, rrwWriteHeader, h]

theorem rrwWriter_calls_of_written {W σ : Type} (next : ResponseWriter σ)
    (cs : List Call) (st : recordingResponseWriter W × σ) (h : st.1.written = true) :
    ((rrwWriter next).calls st cs).1 = st.1 := by
  induction cs generalizing st with
  | nil => rfl
  | cons c cs ih =>
    have h1 := rrwWriter_call_of_written next st c h
    have h2 : ((rrwWriter next).call st c).1.written = true := by rw [h1]; exact h
    have h3 := ih ((rrwWriter next).call st c) h2
    simp only [ResponseWriter.calls, List.foldl_cons] at h3 ⊢
    rw [h3, h1]

theorem rrwWriter_calls_of_fresh {W σ : Type} (next : ResponseWriter σ)
    (cs : List Call) (st : recordingResponseWriter W × σ)
    (hw : st.1.written = false) (hs : st.1.status = StatusOK) :
    ((rrwWriter next).calls st cs).1.status = firstCallStatus cs := by
  cases cs with
  | nil => simpa [ResponseWriter.calls, firstCallStatus, StatusOK] using hs
  | cons c cs =>
    have hstep : ((rrwWriter next).call st c).1.written = true := by
      cases c <;> simp [ResponseWriter.call, rrwWriter, rrwWrite, rrwWriteHeader, hw]
    have h3 := rrwWriter_calls_of_written next cs ((rrwWriter next).call st c) hstep
    simp only [ResponseWriter.calls, List.foldl_cons] at h3 ⊢
    rw [h3]
    cases c with
    | Write b =>
      simpa [ResponseWriter.call, rrwWriter, rrwWrite, hw, firstCallStatus, StatusOK] using hs
    | WriteHeader code =>
      simp [ResponseWriter.call, rrwWriter, rrwWriteHeader, hw, firstCallStatus]

theorem exec_rrw_of_written {W σ : Type} (next : ResponseWriter σ) (p : Prog)
    (st : recordingResponseWriter W × σ) (h : st.1.written = true) :
    (exec (rrwWriter next) p st).sink.1 = st.1 := by
  induction p generalizing st with
  | ret => rfl
  | panics => rfl
  | Write b k ih =>
    have hst : ((rrwWriter next).Write st b).1.1 = st.1 := by
      simp [rrwWriter, rrwWrite, h]
    simp only [exec]
    rw [ih _ _ (by rw [hst]; exact h), hst]
  | WriteHeader c k ih =>
    have hst : ((rrwWriter next).WriteHeader st c).1 = st.1 := by
      simp [rrwWriter, rrwWriteHeader, h]
    simp only [exec]
    rw [ih _ (by rw [hst]; exact h), hst]

theorem exec_rrw_of_fresh {W σ : Type} (next : ResponseWriter σ) (p : Prog)
    (st : recordingResponseWriter W × σ)
    (hw : st.1.written = false) (hs : st.1.status = StatusOK) :
    (exec (rrwWriter next) p st).sink.1.status =
      firstCallStatus ((exec (rrwWriter next) p st).transcript.map Event.call) := by
  cases p with
  | ret => simpa [exec, firstCallStatus, StatusOK] using hs
  | panics => simpa [exec, firstCallStatus, StatusOK] using hs
  | Write b k =>
    have hst : ((rrwWriter next).Write st b).1.1.written = true := by
      simp [rrwWriter, rrwWrite, hw]
    have hstat : ((rrwWriter next).Write st b).1.1.status = st.1.status := by
      simp [rrwWriter, rrwWrite, hw]
    simp only [exec, List.map_cons, Event.call, firstCallStatus]
    rw [exec_rrw_of_written next _ _ hst, hstat, hs]
    rfl
  | WriteHeader c k =>
    have hst : ((rrwWriter next).WriteHeader st c).1.written = true := by
      simp [rrwWriter, rrwWriteHeader, hw]
    have hstat : ((rrwWriter next).WriteHeader st c).1.status = c := by
      simp [rrwWriter, rrwWriteHeader, hw]
    simp only [exec, List.map_cons, Event.call, firstCallStatus]
    rw [exec_rrw_of_written next _ _ hst, hstat]

/-! ## The claims on the writer and the pool -/

/-- C1: on the writer returned by `getRRW`, the recorded status after any
sequence of `Write` and `WriteHeader` calls is decided by the first call: the
code of a first `WriteHeader`, 200 after a first `Write` or no call; calls after
the first do not change it; the same holds at the end of any handler body,
whether it returns or panics. -/
theorem getRRW_status_decided_by_first_call {σ : Type}
    (pool : Pool (ResponseWriter σ)) (choice : Option Nat)
    (w : ResponseWriter σ) (s : σ) :
    (∀ cs : List Call,
      ((rrwWriter w).calls ((getRRW pool choice w).1, s) cs).1.status = firstCallStatus cs) ∧
    (∀ (c : Call) (cs : List Call),
      ((rrwWriter w).calls ((getRRW pool choice w).1, s) (c :: cs)).1.status =
        ((rrwWriter w).calls ((getRRW pool choice w).1, s) [c]).1.status) ∧
    (∀ p : Prog,
      (exec (rrwWriter w) p ((getRRW pool choice w).1, s)).sink.1.status =
        firstCallStatus
          ((exec (rrwWriter w) p ((getRRW pool choice w).1, s)).transcript.map Event.call)) := by
  have hw : ((getRRW pool choice w).1, s).1.written = false := by simp [getRRW_fst]
  have hs : ((getRRW pool choice w).1, s).1.status = StatusOK := by simp [getRRW_fst]
  refine ⟨fun cs => rrwWriter_calls_of_fresh w cs _ hw hs, fun c cs => ?_,
    fun p => exec_rrw_of_fresh w p _ hw hs⟩
  rw [rrwWriter_calls_of_fresh w (c :: cs) _ hw hs, rrwWriter_calls_of_fresh w [c] _ hw hs]
  cases c <;> rfl

/-- C4: whatever state a previous request left in a recording writer, `putRRW`
followed by `getRRW` yields a writer with `written = false` and `status = 200`
bound to the new sink; and over any sequence of acquire/use/release cycles the
statuses recorded are those recorded with a newly allocated writer per request. -/
theorem putRRW_getRRW_resets {σ : Type} (pool : Pool (ResponseWriter σ))
    (old : recordingResponseWriter (ResponseWriter σ)) (choice : Option Nat)
    (w : ResponseWriter σ) (reqs : List (Cycle σ)) :
    (getRRW (putRRW pool old) choice w).1 =
      { writer := some w, written := false, status := 200 } ∧
    runCycles pool reqs = reqs.map freshStatus := by
  refine ⟨by simp [getRRW_fst, StatusOK], ?_⟩
  induction reqs generalizing pool with
  | nil => rfl
  | cons q qs ih =>
    simp only [runCycles, List.map_cons, ih]
    simp only [freshStatus, getRRW_fst]

end Monitoring

/-! ## Lemmas on the registry and on `traceware.ServeHTTP` -/

namespace Monitoring

theorem Registry.applyAll_value (ops : List MetricOp) (reg : Registry) (m : Metric)
    (labels : List GoString) :
    (reg.applyAll ops).value m labels =
      reg.value m labels + (ops.map (MetricOp.delta m labels)).sum := by
  induction ops generalizing reg with
  | nil => simp [Registry.applyAll]
  | cons op ops ih =>
    have h := ih (reg.apply op)
    simp only [Registry.applyAll, List.foldl_cons, List.map_cons, List.sum_cons] at h ⊢
    rw [h]
    cases op with
    | Inc m1 l1 => simp only [Registry.apply, MetricOp.delta]; split <;> omega
    | Dec m1 l1 => simp only [Registry.apply, MetricOp.delta]; split <;> omega
    | Observe m1 l1 v => simp only [Registry.apply, MetricOp.delta]; omega
    | Exemplar m1 v e => simp only [Registry.apply, MetricOp.delta]; omega

/-- The effects of `ServeHTTP` on the registry and its outcome, by how far the
call got: the handler was not called, it panicked, or it returned and the later
calls on the metrics library were accepted up to some point. -/
theorem ServeHTTP_effects {σ : Type} (tw : traceware) (env : Env) (clock : Nat → Int)
    (pool : Pool (ResponseWriter σ)) (choice : Option Nat)
    (w : ResponseWriter σ) (s : σ) (r : Request) :
    (tw.ServeHTTP env clock pool choice w s r).ops =
      (match (tw.ServeHTTP env clock pool choice w s r).handlerOutcome with
       | none => []
       | some .panicked =>
           [MetricOp.Inc .REQUESTS_IN_PROGRESS
              [r.Method, r.Path, env.GetEnv (go "APP_NAME") (go "app")],
            MetricOp.Inc .REQUESTS [r.Method, r.Path, env.GetEnv (go "APP_NAME") (go "app")]]
       | some .returned =>
           [MetricOp.Inc .REQUESTS_IN_PROGRESS
              [r.Method, r.Path, env.GetEnv (go "APP_NAME") (go "app")],
            MetricOp.Inc .REQUESTS [r.Method, r.Path, env.GetEnv (go "APP_NAME") (go "app")],
            MetricOp.Observe .REQUESTS_PROCESSING_TIME
              [r.Method, r.Path, env.GetEnv (go "APP_NAME") (go "app")]
              (Seconds (clock 1 - clock 0)),
            MetricOp.Observe .REQUESTS_PROCESSING_TIME_EXEMPLAR []
              (Seconds (clock 2 - clock 0))] ++
           (if exemplarAccepted env
                [(go "TraceID", (tw.ServeHTTP env clock pool choice w s r).r2.ctx.TraceID),
                 (go "spanId", (tw.ServeHTTP env clock pool choice w s r).r2.ctx.SpanID),
                 (go "method", r.Method), (go "path", r.Path),
                 (go "appName", env.GetEnv (go "APP_NAME") (go "app"))] = true then
              [MetricOp.Exemplar .REQUESTS_PROCESSING_TIME_EXEMPLAR
                 (Seconds (clock 2 - clock 0))
                 [(go "TraceID", (tw.ServeHTTP env clock pool choice w s r).r2.ctx.TraceID),
                  (go "spanId", (tw.ServeHTTP env clock pool choice w s r).r2.ctx.SpanID),
                  (go "method", r.Method), (go "path", r.Path),
                  (go "appName", env.GetEnv (go "APP_NAME") (go "app"))]] ++
              (if validateLabelValues env
                   [r.Method, r.Path,
                    Itoa (tw.ServeHTTP env clock pool choice w s r).rrw.status,
                    env.GetEnv (go "APP_NAME") (go "app")] = true then
                 [MetricOp.Inc .RESPONSES
                    [r.Method, r.Path,
                     Itoa (tw.ServeHTTP env clock pool choice w s r).rrw.status,
                     env.GetEnv (go "APP_NAME") (go "app")],
                  MetricOp.Dec .REQUESTS_IN_PROGRESS
                    [r.Method, r.Path, env.GetEnv (go "APP_NAME") (go "app")]]
               else [])
            else [])) ∧
    (tw.ServeHTTP env clock pool choice w s r).outcome =
      (match (tw.ServeHTTP env clock pool choice w s r).handlerOutcome with
       | some .returned =>
           if exemplarAccepted env
                [(go "TraceID", (tw.ServeHTTP env clock pool choice w s r).r2.ctx.TraceID),
                 (go "spanId", (tw.ServeHTTP env clock pool choice w s r).r2.ctx.SpanID),
                 (go "method", r.Method), (go "path", r.Path),
                 (go "appName", env.GetEnv (go "APP_NAME") (go "app"))] = true ∧
              validateLabelValues env
                   [r.Method, r.Path,
                    Itoa (tw.ServeHTTP env clock pool choice w s r).rrw.status,
                    env.GetEnv (go "APP_NAME") (go "app")] = true
           then .returned else .panicked
       | _ => .panicked) ∧
    ((tw.ServeHTTP env clock pool choice w s r).handlerOutcome = none ↔
      validateLabelValues env [r.Method, r.Path, env.GetEnv (go "APP_NAME") (go "app")]
        = false) := by
  unfold traceware.ServeHTTP
  simp only [performCalls]
  cases hv : validateLabelValues env [r.Method, r.Path, env.GetEnv (go "APP_NAME") (go "app")]
  · simp
  · simp only [if_true]
    split
    · simp
    · simp only [List.cons_append, List.nil_append, List.append_nil]
      split_ifs <;> simp_all

/-- How `ServeHTTP` leaves the writer: untouched when the handler was not
called, and as the run of the handler on the wrapped writer leaves it
otherwise. -/
theorem ServeHTTP_run {σ : Type} (tw : traceware) (env : Env) (clock : Nat → Int)
    (pool : Pool (ResponseWriter σ)) (choice : Option Nat)
    (w : ResponseWriter σ) (s : σ) (r : Request) :
    (tw.ServeHTTP env clock pool choice w s r).sink =
      (match (tw.ServeHTTP env clock pool choice w s r).handlerOutcome with
       | none => s
       | some _ =>
         (exec (rrwWriter w) (tw.handler (tw.ServeHTTP env clock pool choice w s r).r2)
           ((getRRW pool choice w).1, s)).sink.2) ∧
    (tw.ServeHTTP env clock pool choice w s r).rrw =
      (match (tw.ServeHTTP env clock pool choice w s r).handlerOutcome with
       | none => (getRRW pool choice w).1
       | some _ =>
         (exec (rrwWriter w) (tw.handler (tw.ServeHTTP env clock pool choice w s r).r2)
           ((getRRW pool choice w).1, s)).sink.1) ∧
    (tw.ServeHTTP env clock pool choice w s r).transcript =
      (match (tw.ServeHTTP env clock pool choice w s r).handlerOutcome with
       | none => []
       | some _ =>
         (exec (rrwWriter w) (tw.handler (tw.ServeHTTP env clock pool choice w s r).r2)
           ((getRRW pool choice w).1, s)).transcript) := by
  unfold traceware.ServeHTTP
  simp only [performCalls]
  cases hv : validateLabelValues env [r.Method, r.Path, env.GetEnv (go "APP_NAME") (go "app")]
  · simp
  · simp only [if_true]
    split <;> simp

/-- The in-progress gauge after a call of `ServeHTTP` that returns: every series
is back at its value. -/
theorem ServeHTTP_in_progress_gauge {σ : Type} (tw : traceware) (env : Env)
    (clock : Nat → Int) (pool : Pool (ResponseWriter σ)) (choice : Option Nat)
    (w : ResponseWriter σ) (s : σ) (r : Request) (reg : Registry) (labels : List GoString)
    (hret : (tw.ServeHTTP env clock pool choice w s r).outcome = .returned) :
    (reg.applyAll (tw.ServeHTTP env clock pool choice w s r).ops).value
        .REQUESTS_IN_PROGRESS labels =
      reg.value .REQUESTS_IN_PROGRESS labels := by
  obtain ⟨hops, hout, _⟩ := ServeHTTP_effects tw env clock pool choice w s r
  rw [hret] at hout
  rw [Registry.applyAll_value, hops]
  rcases h : (tw.ServeHTTP env clock pool choice w s r).handlerOutcome with _ | _ | _ <;>
    rw [h] at hout <;> simp only [] at hout
  · cases hout
  · split_ifs at hout with hc
    by_cases hl : labels = [r.Method, r.Path, env.GetEnv (go "APP_NAME") (go "app")] <;>
      simp [MetricOp.delta, hl, hc.1, hc.2]
  · cases hout

theorem exec_logged {σ : Type} (w : ResponseWriter σ) (p : Prog) (st : σ × List Event) :
    (exec (logged w) p st).sink.2 = st.2 ++ (exec (logged w) p st).transcript ∧
    (exec (logged w) p st).sink.1 = (exec w p st.1).sink ∧
    (exec (logged w) p st).transcript = (exec w p st.1).transcript ∧
    (exec (logged w) p st).outcome = (exec w p st.1).outcome := by
  induction p generalizing st with
  | ret => simp [exec]
  | panics => simp [exec]
  | Write b k ih =>
    obtain ⟨h1, h2, h3, h4⟩ := ih (w.Write st.1 b).2
      ((w.Write st.1 b).1, st.2 ++ [Event.Write b (w.Write st.1 b).2])
    simp only [exec, logged] at h1 h2 h3 h4 ⊢
    refine ⟨?_, h2, ?_, h4⟩
    · rw [h1]; simp
    · rw [h3]
  | WriteHeader c k ih =>
    obtain ⟨h1, h2, h3, h4⟩ := ih (w.WriteHeader st.1 c, st.2 ++ [Event.WriteHeader c])
    simp only [exec, logged] at h1 h2 h3 h4 ⊢
    refine ⟨?_, h2, ?_, h4⟩
    · rw [h1]; simp
    · rw [h3]

theorem exec_wrapped {W σ : Type} (w : ResponseWriter σ) (p : Prog)
    (st : recordingResponseWriter W × responseWriter σ) :
    (exec (rrwWriter (responseWriter.asWriter w)) p st).transcript =
      (exec w p st.2.ResponseWriter).transcript ∧
    (exec (rrwWriter (responseWriter.asWriter w)) p st).sink.2.ResponseWriter =
      (exec w p st.2.ResponseWriter).sink ∧
    (exec (rrwWriter (responseWriter.asWriter w)) p st).outcome =
      (exec w p st.2.ResponseWriter).outcome := by
  induction p generalizing st with
  | ret => simp [exec]
  | panics => simp [exec]
  | Write b k ih =>
    obtain ⟨h1, h2, h3⟩ := ih (w.Write st.2.ResponseWriter b).2
      ((rrwWriter (responseWriter.asWriter w)).Write st b).1
    simp only [exec, rrwWriter, rrwWrite, responseWriter.asWriter, responseWriter.Write]
      at h1 h2 h3 ⊢
    exact ⟨by rw [h1], h2, h3⟩
  | WriteHeader c k ih =>
    obtain ⟨h1, h2, h3⟩ := ih ((rrwWriter (responseWriter.asWriter w)).WriteHeader st c)
    simp only [exec, rrwWriter, rrwWriteHeader, responseWriter.asWriter,
      responseWriter.WriteHeader] at h1 h2 h3 ⊢
    exact ⟨by rw [h1], h2, h3⟩

end Monitoring

/-! ## The claims on the middleware -/

namespace Monitoring

/-- C2: evaluated at a handler that panics.  The in-progress gauge series of the
request is 0 before the call and 1 after `ServeHTTP` has unwound: the `Inc` made
before the handler is not matched by a `Dec`. -/
theorem ServeHTTP_panic_leaves_gauge_incremented :
    ((mw Prog.panics).ServeHTTP env0 tickingClock ([] : Pool (ResponseWriter Unit)) none
        nullSink () (routedRequest (go "/health"))).handlerOutcome = some Outcome.panicked ∧
    ((mw Prog.panics).ServeHTTP env0 tickingClock ([] : Pool (ResponseWriter Unit)) none
        nullSink () (routedRequest (go "/health"))).outcome = Outcome.panicked ∧
    Registry.empty.value Metric.REQUESTS_IN_PROGRESS [go "GET", go "/health", go "app"] = 0 ∧
    (Registry.empty.applyAll
      ((mw Prog.panics).ServeHTTP env0 tickingClock ([] : Pool (ResponseWriter Unit)) none
        nullSink () (routedRequest (go "/health"))).ops).value
      Metric.REQUESTS_IN_PROGRESS [go "GET", go "/health", go "app"] = 1 := by
  decide

/-- C3, as stated, fails: for two `GET` requests without a resolved route, to
`/xyz` and to `/abc`, the route label is the synthesized string for both, yet the
request counter is incremented under the two different series of the raw paths. -/
theorem ServeHTTP_unrouted_paths_distinct_series :
    ((mw Prog.ret).ServeHTTP env0 tickingClock ([] : Pool (ResponseWriter Unit)) none
        nullSink () (getRequest (go "/xyz"))).routeStr = go "HTTP GET route not found" ∧
    ((mw Prog.ret).ServeHTTP env0 tickingClock ([] : Pool (ResponseWriter Unit)) none
        nullSink () (getRequest (go "/abc"))).routeStr = go "HTTP GET route not found" ∧
    labelsUsed Metric.REQUESTS
      ((mw Prog.ret).ServeHTTP env0 tickingClock ([] : Pool (ResponseWriter Unit)) none
        nullSink () (getRequest (go "/xyz"))).ops = [[go "GET", go "/xyz", go "app"]] ∧
    labelsUsed Metric.REQUESTS
      ((mw Prog.ret).ServeHTTP env0 tickingClock ([] : Pool (ResponseWriter Unit)) none
        nullSink () (getRequest (go "/abc"))).ops = [[go "GET", go "/abc", go "app"]] ∧
    labelsUsed Metric.REQUESTS
      ((mw Prog.ret).ServeHTTP env0 tickingClock ([] : Pool (ResponseWriter Unit)) none
        nullSink () (getRequest (go "/xyz"))).ops ≠
    labelsUsed Metric.REQUESTS
      ((mw Prog.ret).ServeHTTP env0 tickingClock ([] : Pool (ResponseWriter Unit)) none
        nullSink () (getRequest (go "/abc"))).ops := by
  decide

/-- C3, amended: every label vector under which `ServeHTTP` updates the request
counter, the in-progress gauge, the duration histogram or the response counter
carries the request method first and the raw URL path second, whatever the
route resolution gave; and two requests whose label values the metrics library
accepts, served by the same middleware, increment the same request-counter
series exactly when their methods and their URL paths are equal. -/
theorem ServeHTTP_path_label_is_url_path {σ : Type} (tw : traceware) (env : Env)
    (clock : Nat → Int) (pool : Pool (ResponseWriter σ)) (choice : Option Nat)
    (w : ResponseWriter σ) (s : σ) (r r1 : Request) :
    (∀ (m : Metric) (labels : List GoString),
      m ≠ .REQUESTS_PROCESSING_TIME_EXEMPLAR →
      labels ∈ labelsUsed m (tw.ServeHTTP env clock pool choice w s r).ops →
        labels[0]? = some r.Method ∧ labels[1]? = some r.Path) ∧
    (validateLabelValues env [r.Method, r.Path, env.GetEnv (go "APP_NAME") (go "app")]
        = true →
     validateLabelValues env [r1.Method, r1.Path, env.GetEnv (go "APP_NAME") (go "app")]
        = true →
      (labelsUsed .REQUESTS (tw.ServeHTTP env clock pool choice w s r).ops =
          labelsUsed .REQUESTS (tw.ServeHTTP env clock pool choice w s r1).ops ↔
        r.Method = r1.Method ∧ r.Path = r1.Path)) := by
  constructor
  · intro m
    rw [(ServeHTTP_effects tw env clock pool choice w s r).1]
    rcases (tw.ServeHTTP env clock pool choice w s r).handlerOutcome with _ | _ | _ <;>
      cases m <;> simp only [] <;> (try split_ifs) <;> simp [labelsUsed]
  · have key : ∀ q : Request,
        validateLabelValues env [q.Method, q.Path, env.GetEnv (go "APP_NAME") (go "app")]
          = true →
        labelsUsed .REQUESTS (tw.ServeHTTP env clock pool choice w s q).ops =
          [[q.Method, q.Path, env.GetEnv (go "APP_NAME") (go "app")]] := by
      intro q hq
      obtain ⟨hops, _, hnone⟩ := ServeHTTP_effects tw env clock pool choice w s q
      rw [hops]
      rcases h : (tw.ServeHTTP env clock pool choice w s q).handlerOutcome with _ | _ | _
      · rw [hnone.1 h] at hq; cases hq
      · simp only []; split_ifs <;> simp [labelsUsed]
      · simp [labelsUsed]
    intro hv hv1
    rw [key r hv, key r1 hv1]
    simp

/-- C3, amended, at `GET /xyz` and `GET /abc` without a route: the request
counter is updated under the path label `/xyz`, and the two requests do not
share a request-counter series. -/
theorem ServeHTTP_path_label_is_url_path_witness :
    [go "GET", go "/xyz", go "app"] ∈ labelsUsed Metric.REQUESTS
      ((mw Prog.ret).ServeHTTP env0 tickingClock ([] : Pool (ResponseWriter Unit)) none
        nullSink () (getRequest (go "/xyz"))).ops ∧
    ([go "GET", go "/xyz", go "app"][0]? = some (getRequest (go "/xyz")).Method ∧
     [go "GET", go "/xyz", go "app"][1]? = some (getRequest (go "/xyz")).Path) ∧
    validateLabelValues env0 [(getRequest (go "/xyz")).Method, (getRequest (go "/xyz")).Path,
      env0.GetEnv (go "APP_NAME") (go "app")] = true ∧
    validateLabelValues env0 [(getRequest (go "/abc")).Method, (getRequest (go "/abc")).Path,
      env0.GetEnv (go "APP_NAME") (go "app")] = true ∧
    (labelsUsed Metric.REQUESTS
        ((mw Prog.ret).ServeHTTP env0 tickingClock ([] : Pool (ResponseWriter Unit)) none
          nullSink () (getRequest (go "/xyz"))).ops =
      labelsUsed Metric.REQUESTS
        ((mw Prog.ret).ServeHTTP env0 tickingClock ([] : Pool (ResponseWriter Unit)) none
          nullSink () (getRequest (go "/abc"))).ops ↔
      (getRequest (go "/xyz")).Method = (getRequest (go "/abc")).Method ∧
      (getRequest (go "/xyz")).Path = (getRequest (go "/abc")).Path) :=
  ⟨by decide,
   (ServeHTTP_path_label_is_url_path (mw Prog.ret) env0 tickingClock
      ([] : Pool (ResponseWriter Unit)) none nullSink () (getRequest (go "/xyz"))
      (getRequest (go "/abc"))).1 Metric.REQUESTS [go "GET", go "/xyz", go "app"]
      (by decide) (by decide),
   by decide, by decide,
   (ServeHTTP_path_label_is_url_path (mw Prog.ret) env0 tickingClock
      ([] : Pool (ResponseWriter Unit)) none nullSink () (getRequest (go "/xyz"))
      (getRequest (go "/abc"))).2 (by decide) (by decide)⟩

/-- C6: evaluated at a handler that writes and then calls `WriteHeader(500)`.
The response counter is incremented under `status_code="200"` while the
exception counter is incremented under `Internal Server Error`, the text of
500. -/
theorem chain_layers_disagree_on_status :
    labelsUsed Metric.RESPONSES
      (chain (mw writeThenError) env0 tickingClock [] none nullSink ()
        (routedRequest (go "/health"))).ops =
      [[go "GET", go "/health", go "200", go "app"]] ∧
    labelsUsed Metric.EXCEPTIONS
      (chain (mw writeThenError) env0 tickingClock [] none nullSink ()
        (routedRequest (go "/health"))).ops =
      [[go "GET", go "/health", go "Internal Server Error", go "app"]] ∧
    (chain (mw writeThenError) env0 tickingClock [] none nullSink ()
        (routedRequest (go "/health"))).rw.statusCode = 500 := by
  decide

end Monitoring

namespace Monitoring

/-- C7: through the chain of both wrappers, whatever the `written` flag, the
recorded status and the outer status code are, every `Write` hands back what
the sink returned and leaves the sink as a direct call does, every
`WriteHeader` leaves the sink as a direct call does, and a handler body makes
the same calls with the same results, ends the same way and leaves the same
sink state as when it is run on the sink directly; a sink that logs what it
receives ends with its log extended by exactly the handler's calls in order;
and the chain of `main` leaves the sink as the handler run directly does, or
untouched when the handler is never called. -/
theorem chain_forwards_to_sink {σ : Type} (w : ResponseWriter σ)
    (rrw : recordingResponseWriter (ResponseWriter (responseWriter σ)))
    (rw : responseWriter σ) (p : Prog) (log : List Event)
    (tw : traceware) (env : Env) (clock : Nat → Int)
    (pool : Pool (ResponseWriter (responseWriter σ))) (choice : Option Nat)
    (s : σ) (r : Request) :
    (∀ b : Bytes,
      ((rrwWriter (responseWriter.asWriter w)).Write (rrw, rw) b).2 =
        (w.Write rw.ResponseWriter b).2 ∧
      ((rrwWriter (responseWriter.asWriter w)).Write (rrw, rw) b).1.2.ResponseWriter =
        (w.Write rw.ResponseWriter b).1) ∧
    (∀ c : Int,
      ((rrwWriter (responseWriter.asWriter w)).WriteHeader (rrw, rw) c).2.ResponseWriter =
        w.WriteHeader rw.ResponseWriter c) ∧
    (exec (rrwWriter (responseWriter.asWriter w)) p (rrw, rw)).transcript =
      (exec w p rw.ResponseWriter).transcript ∧
    (exec (rrwWriter (responseWriter.asWriter w)) p (rrw, rw)).sink.2.ResponseWriter =
      (exec w p rw.ResponseWriter).sink ∧
    (exec (rrwWriter (responseWriter.asWriter w)) p (rrw, rw)).outcome =
      (exec w p rw.ResponseWriter).outcome ∧
    (exec (rrwWriter (responseWriter.asWriter (logged w))) p
        (rrw, { ResponseWriter := (rw.ResponseWriter, log),
                statusCode := rw.statusCode })).sink.2.ResponseWriter.2 =
      log ++ (exec (rrwWriter (responseWriter.asWriter (logged w))) p
        (rrw, { ResponseWriter := (rw.ResponseWriter, log),
                statusCode := rw.statusCode })).transcript ∧
    (chain tw env clock pool choice w s r).sink =
      (match (tw.ServeHTTP env clock pool choice (responseWriter.asWriter w)
          (NewResponseWriter s) r).handlerOutcome with
       | none => s
       | some _ =>
         (exec w
           (tw.handler (tw.ServeHTTP env clock pool choice (responseWriter.asWriter w)
             (NewResponseWriter s) r).r2) s).sink) := by
  refine ⟨fun b => ⟨rfl, rfl⟩, fun c => rfl, (exec_wrapped w p (rrw, rw)).1,
    (exec_wrapped w p (rrw, rw)).2.1, (exec_wrapped w p (rrw, rw)).2.2, ?_, ?_⟩
  · have h1 := exec_wrapped (logged w) p
      (rrw, ({ ResponseWriter := (rw.ResponseWriter, log),
               statusCode := rw.statusCode } : responseWriter (σ × List Event)))
    have h2 := exec_logged w p (rw.ResponseWriter, log)
    rw [h1.2.1, h1.1]
    exact h2.1
  · have hrun := ServeHTTP_run tw env clock pool choice (responseWriter.asWriter w)
      (NewResponseWriter s) r
    have hw := exec_wrapped w
      (tw.handler (tw.ServeHTTP env clock pool choice (responseWriter.asWriter w)
          (NewResponseWriter s) r).r2)
      ((getRRW pool choice (responseWriter.asWriter w)).1, NewResponseWriter s)
    have hsink : (chain tw env clock pool choice w s r).sink =
        (tw.ServeHTTP env clock pool choice (responseWriter.asWriter w)
          (NewResponseWriter s) r).sink.ResponseWriter := by
      unfold chain ServeHTTPMiddleware traceware.asHandler
      simp only []
      split
      · rfl
      · split <;> rfl
    rw [hsink, hrun.1]
    cases (tw.ServeHTTP env clock pool choice (responseWriter.asWriter w)
        (NewResponseWriter s) r).handlerOutcome with
    | none => rfl
    | some o =>
      simp only []
      rw [hw.2.1]
      rfl

/-- C9: the route label `ServeHTTP` computes is the path template when there is
a current route and `GetPathTemplate` succeeds, otherwise the path regexp when
`GetPathRegexp` succeeds, and `HTTP <method> route not found` when there is no
route, both fail or the string is empty; with the default span-name formatter,
which `RouteMiddleware` installs when none is configured, the span name is this
label; and the span-start options hold the HTTP-route attribute, once and with
the resolved string, exactly when a non-empty route string was resolved. -/
theorem ServeHTTP_route_label {σ : Type} (tw : traceware) (env : Env)
    (clock : Nat → Int) (pool : Pool (ResponseWriter σ)) (choice : Option Nat)
    (w : ResponseWriter σ) (s : σ) (r : Request) (service : GoString)
    (handler : Request → Prog) :
    (tw.ServeHTTP env clock pool choice w s r).routeStr = routeLabelSpec r ∧
    (({ tw with spanNameFormatter := defaultSpanNameFunc } : traceware).ServeHTTP
        env clock pool choice w s r).spanName = routeLabelSpec r ∧
    ((RouteMiddleware env service [] handler).ServeHTTP
        env clock pool choice w s r).spanName = routeLabelSpec r ∧
    (tw.ServeHTTP env clock pool choice w s r).opts.filter SpanStartOption.isHTTPRoute =
      (match resolvedRouteSpec r with
       | some t => [SpanStartOption.HTTPRoute t]
       | none => []) := by
  have key : ∀ tw1 : traceware,
      (tw1.ServeHTTP env clock pool choice w s r).routeStr = routeLabelSpec r ∧
      (tw1.ServeHTTP env clock pool choice w s r).spanName =
        tw1.spanNameFormatter (routeLabelSpec r) r ∧
      (tw1.ServeHTTP env clock pool choice w s r).opts.filter SpanStartOption.isHTTPRoute =
        (match resolvedRouteSpec r with
         | some t => [SpanStartOption.HTTPRoute t]
         | none => []) := by
    intro tw1
    obtain ⟨method, path, header, ctx, route⟩ := r
    unfold traceware.ServeHTTP routeLabelSpec resolvedRouteSpec
    simp only []
    rcases route with _ | ⟨t | t, re | re⟩ <;> split <;> (try split) <;>
      simp [SpanStartOption.isHTTPRoute, List.filter_append, List.filter_cons] <;>
      (try split_ifs) <;>
      simp_all [SpanStartOption.isHTTPRoute, List.filter_append, List.filter_cons]
  refine ⟨(key tw).1, ?_, ?_, (key tw).2.2⟩
  · rw [(key _).2.1]; rfl
  · rw [(key _).2.1]; rfl

/-- C10, as stated, fails: with a clock that advances by one second between
readings and a handler that just returns, the plain duration histogram observes
1 second and the exemplar histogram observes 2 seconds. -/
theorem ServeHTTP_two_observations_differ :
    observed Metric.REQUESTS_PROCESSING_TIME
      ((mw Prog.ret).ServeHTTP env0 tickingClock ([] : Pool (ResponseWriter Unit)) none
        nullSink () (routedRequest (go "/health"))).ops = [1] ∧
    observed Metric.REQUESTS_PROCESSING_TIME_EXEMPLAR
      ((mw Prog.ret).ServeHTTP env0 tickingClock ([] : Pool (ResponseWriter Unit)) none
        nullSink () (routedRequest (go "/health"))).ops = [2] ∧
    observed Metric.REQUESTS_PROCESSING_TIME_EXEMPLAR
      ((mw Prog.ret).ServeHTTP env0 tickingClock ([] : Pool (ResponseWriter Unit)) none
        nullSink () (routedRequest (go "/health"))).ops ≠
    observed Metric.REQUESTS_PROCESSING_TIME
      ((mw Prog.ret).ServeHTTP env0 tickingClock ([] : Pool (ResponseWriter Unit)) none
        nullSink () (routedRequest (go "/health"))).ops := by
  have hh : ((mw Prog.ret).ServeHTTP env0 tickingClock ([] : Pool (ResponseWriter Unit))
      none nullSink () (routedRequest (go "/health"))).handlerOutcome =
        some Outcome.returned := by decide
  have hops := (ServeHTTP_effects (mw Prog.ret) env0 tickingClock
    ([] : Pool (ResponseWriter Unit)) none nullSink () (routedRequest (go "/health"))).1
  rw [hh] at hops
  simp only [] at hops
  have h1 : Seconds (tickingClock 1 - tickingClock 0) = 1 := by
    have e : tickingClock 1 - tickingClock 0 = 1000000000 := by decide
    have a : Int.tdiv 1000000000 Second = 1 := by decide
    have b : Int.tmod 1000000000 Second = 0 := by decide
    simp only [Seconds, e, a, b]
    norm_num
  have h2 : Seconds (tickingClock 2 - tickingClock 0) = 2 := by
    have e : tickingClock 2 - tickingClock 0 = 2000000000 := by decide
    have a : Int.tdiv 2000000000 Second = 2 := by decide
    have b : Int.tmod 2000000000 Second = 0 := by decide
    simp only [Seconds, e, a, b]
    norm_num
  rw [hops, h1, h2]
  refine ⟨?_, ?_, ?_⟩ <;> split_ifs <;> simp [observed]

/-- C10, amended: when the handler returns, the plain histogram observes the
time from the start reading to the second reading of the clock and the exemplar
histogram observes the time from the same start reading to the third reading;
the two values are equal when the second and the third reading are equal. -/
theorem ServeHTTP_observes_two_readings {σ : Type} (tw : traceware) (env : Env)
    (clock : Nat → Int) (pool : Pool (ResponseWriter σ)) (choice : Option Nat)
    (w : ResponseWriter σ) (s : σ) (r : Request)
    (hret : (tw.ServeHTTP env clock pool choice w s r).handlerOutcome = some .returned) :
    observed .REQUESTS_PROCESSING_TIME (tw.ServeHTTP env clock pool choice w s r).ops =
      [Seconds (clock 1 - clock 0)] ∧
    observed .REQUESTS_PROCESSING_TIME_EXEMPLAR
      (tw.ServeHTTP env clock pool choice w s r).ops = [Seconds (clock 2 - clock 0)] ∧
    (clock 1 = clock 2 →
      observed .REQUESTS_PROCESSING_TIME_EXEMPLAR
        (tw.ServeHTTP env clock pool choice w s r).ops =
      observed .REQUESTS_PROCESSING_TIME
        (tw.ServeHTTP env clock pool choice w s r).ops) := by
  have hops := (ServeHTTP_effects tw env clock pool choice w s r).1
  rw [hret] at hops
  simp only [] at hops
  have hp : observed .REQUESTS_PROCESSING_TIME (tw.ServeHTTP env clock pool choice w s r).ops =
      [Seconds (clock 1 - clock 0)] := by
    rw [hops]; split_ifs <;> simp [observed]
  have he : observed .REQUESTS_PROCESSING_TIME_EXEMPLAR
      (tw.ServeHTTP env clock pool choice w s r).ops = [Seconds (clock 2 - clock 0)] := by
    rw [hops]; split_ifs <;> simp [observed]
  exact ⟨hp, he, fun h => by rw [hp, he, h]⟩

/-- C10, amended, at a clock that stands still after the handler is done: both
histograms observe the same value. -/
theorem ServeHTTP_observes_two_readings_witness :
    ((mw Prog.ret).ServeHTTP env0 steppedClock ([] : Pool (ResponseWriter Unit)) none
        nullSink () (routedRequest (go "/health"))).handlerOutcome = some Outcome.returned ∧
    steppedClock 1 = steppedClock 2 ∧
    observed Metric.REQUESTS_PROCESSING_TIME_EXEMPLAR
      ((mw Prog.ret).ServeHTTP env0 steppedClock ([] : Pool (ResponseWriter Unit)) none
        nullSink () (routedRequest (go "/health"))).ops =
    observed Metric.REQUESTS_PROCESSING_TIME
      ((mw Prog.ret).ServeHTTP env0 steppedClock ([] : Pool (ResponseWriter Unit)) none
        nullSink () (routedRequest (go "/health"))).ops :=
  ⟨by decide, by decide,
   (ServeHTTP_observes_two_readings (mw Prog.ret) env0 steppedClock
      ([] : Pool (ResponseWriter Unit)) none nullSink () (routedRequest (go "/health"))
      (by decide)).2.2 (by decide)⟩

end Monitoring
